import Mathlib

/-!
# compile-time-ndarray

A shallow embedding of `main.cpp`: the class template `ndarray<T, Dims...>` with its two
partial specialisations, their constructors, `operator[]`, `dimensions()`, and the three
`std::formatter` specialisations, followed by theorems about them.

Conventions of the embedding.

* `std::size_t` extents and indices are natural numbers; no arithmetic on them can overflow
  in the code that is embedded (indices only count up to an extent).
* A built-in array `X m_data[N]` is a list of length exactly `N` (`CArray X N`): the extent is
  part of the type, as in the source.
* The source never checks an index.  A read outside the array is `none`, a write outside the
  array is the fault `Fault.out_of_bounds`; a thrown `std::runtime_error` is the fault
  `Fault.runtime_error`.  Operations that write or throw return `Except Fault _`.
* A constructor that names no initialiser for `m_data` finds it default-initialised, which
  for a scalar `T` means indeterminate.  Where the content at entry can show in the result
  (the defaulted constructors, the values constructor) it is a parameter `entry` that ranges
  over every content; where the body overwrites every slot the embedding starts from the
  zero-filled storage.
* Text written through `std::format_to` is a `String` that is appended to.
* The formatting loops of lines 110 and 129 count with an `int` (`auto i = 0`); the counter is
  a natural number here, i.e. extents are taken to fit an `int`.
-/

namespace CompileTimeNdarray

/-! ## Data model -/

/-- Abnormal outcomes: the exception thrown at line 20, and an access outside `m_data`,
which the source leaves undefined. -/
inductive Fault where
  | runtime_error (what : String)
  | out_of_bounds
  deriving DecidableEq, Repr

/-- Built-in array `α m_data[n]`: exactly `n` slots. -/
abbrev CArray (α : Type) (n : Nat) : Type := { l : List α // l.length = n }

/-- Every slot holds `x`. -/
def CArray.fill {α : Type} (n : Nat) (x : α) : CArray α n :=
  ⟨List.replicate n x, List.length_replicate n x⟩

/-- Unchecked read `m_data[i]`. -/
def CArray.read {α : Type} {n : Nat} (a : CArray α n) (i : Nat) : Option α :=
  a.val[i]?

/-- Unchecked write `m_data[i] = x`. -/
def CArray.write {α : Type} {n : Nat} (a : CArray α n) (i : Nat) (x : α) :
    Except Fault (CArray α n) :=
  if i < n then
    .ok ⟨a.val.set i x, (List.length_set a.val i x).trans a.property⟩
  else
    .error .out_of_bounds

/-- Loop helper: `fuel` counts the iterations that are left. -/
def forLoopAux {σ : Type} (hi : Nat) (body : Nat → σ → Except Fault σ) :
    Nat → Nat → σ → Except Fault σ
  | 0, _, s => .ok s
  | fuel + 1, i, s =>
    if i < hi then
      match body i s with
      | .ok s' => forLoopAux hi body fuel (i + 1) s'
      | .error e => .error e
    else
      .ok s

/-- The loop `for (; i < hi; ++i) body` (also `while (i < hi) { body; ++i; }`), entered with
counter `i` and state `s`.  It runs `hi - i` iterations, which is the fuel handed to
`forLoopAux`; `forLoop_unfold` below shows the fuel never cuts the loop short. -/
def forLoop {σ : Type} (hi : Nat) (body : Nat → σ → Except Fault σ) (i : Nat) (s : σ) :
    Except Fault σ :=
  forLoopAux hi body (hi - i) i s

/-- The comma fold `(RestOfDims , ...)` over a non-empty pack `R0, Rs...`: a unary right fold
`R0 , (R1 , (... , Rk))`, and the built-in comma operator yields its right operand. -/
def commaFold : Nat → List Nat → Nat
  | r, [] => r
  | _, r' :: rs => commaFold r' rs

/-- Default member initialiser of `m_restOfDimSizes` (line 8):
`std::array<std::size_t, sizeof...(RestOfDims)> m_restOfDimSizes{ {(RestOfDims, ...)} }`.
The braces hold ONE initialiser, the comma fold; the remaining elements of the
`std::array` are value-initialised to zero. -/
def restOfDimSizesInit : (RestOfDims : List Nat) → CArray Nat RestOfDims.length
  | [] => ⟨[], rfl⟩
  | r :: rs => ⟨commaFold r rs :: List.replicate rs.length 0, by simp⟩

/-- The specialisation `ndarray<T, LastDim>` (lines 42-76). -/
structure ndarrayLast (T : Type) (LastDim : Nat) where
  m_data : CArray T LastDim
  m_dimSize : Nat

/-- The specialisation `ndarray<T, FirstDim, RestOfDims...>` (lines 5-40); `Sub` stands for
the element type `ndarray<T, RestOfDims...>` of `m_data`. -/
structure ndarrayFirst (Sub : Type) (FirstDim : Nat) (RestOfDims : List Nat) where
  m_data : CArray Sub FirstDim
  m_dimSize : Nat
  m_restOfDimSizes : CArray Nat RestOfDims.length

/-- The template `ndarray<T, Dims...>` at `Dims = D0, Ds...`: with one extent the
specialisation for `LastDim` is the more specialised one and is chosen, with more than one
extent only the `FirstDim, RestOfDims...` specialisation matches. -/
def ndarray (T : Type) : Nat → List Nat → Type
  | LastDim, [] => ndarrayLast T LastDim
  | FirstDim, d :: ds => ndarrayFirst (ndarray T d ds) FirstDim (d :: ds)

/-- What `operator[]` yields for `ndarray<T, D0, Ds...>`: `T` when `Ds` is empty, otherwise
`ndarray<T, Ds...>`. -/
def Slot (T : Type) : List Nat → Type
  | [] => T
  | d :: ds => ndarray T d ds

/-! ## `ndarray<T, LastDim>` -/

namespace ndarrayLast

variable {T : Type} {LastDim : Nat}

/-- The defaulted default constructor `constexpr ndarray() = default;` (line 46), run on
storage whose slots hold `entry`.  It has no body and `m_data` (line 43) has no initialiser,
so no slot is written and `m_data` keeps what the storage held; `m_dimSize` takes its default
member initialiser (line 44).  For a declaration without initialiser, `ndarray<int, 5> a;`,
`entry` is the indeterminate content of the storage. -/
def ctor_defaulted (LastDim : Nat) (entry : CArray T LastDim) : ndarrayLast T LastDim :=
  ⟨entry, LastDim⟩

/-- Value-initialisation, `ndarray<T, LastDim>{}` or `ndarray<T, LastDim>()`: the default
constructor is not user-provided, so the object is zero-initialised first and the defaulted
constructor then runs on storage that holds `T{}` in every slot. -/
def ctor_default [Inhabited T] (LastDim : Nat) : ndarrayLast T LastDim :=
  ctor_defaulted LastDim (CArray.fill LastDim default)

/-- The constructor `ndarray(const T& value)` (lines 48-52).  Its loop overwrites every slot
whatever the storage held at entry (`fillLoop_spec`), so the content at entry cannot be
observed; the embedding starts from the zero-filled storage. -/
def ctor_value [Inhabited T] (LastDim : Nat) (value : T) : Except Fault (ndarrayLast T LastDim) :=
  match forLoop LastDim (fun i data => CArray.write data i value) 0
      (ctor_default LastDim).m_data with
  | .ok data => .ok ⟨data, LastDim⟩
  | .error e => .error e

/-- The fold expression of line 58 over the pack `values`, left to right:
`(index < sizeof...(Values) ? m_data[index++] = std::forward<Values>(values) : Values{}), ...`.
`count` is `sizeof...(Values)`; `convert` is the conversion of an argument to `T` done by the
assignment; the other branch, `Values{}`, creates a temporary and changes nothing. -/
def valuesFold {V : Type} (count : Nat) (convert : V → T) :
    List V → Nat → CArray T LastDim → Except Fault (Nat × CArray T LastDim)
  | [], index, data => .ok (index, data)
  | v :: vs, index, data =>
    if index < count then
      match CArray.write data index (convert v) with
      | .ok data' => valuesFold count convert vs (index + 1) data'
      | .error e => .error e
    else
      valuesFold count convert vs index data

/-- The constructor template `ndarray(Values&&... values)` (lines 54-62).  The constructor
is user-provided and names no member initialiser, so `m_data` is default-initialised when the
body is entered: `entry` is the content of the storage at that point, indeterminate for a
scalar `T`.  The constraint `sizeof...(Values) <= LastDim` is the hypothesis `_h`: a call that
violates it does not compile. -/
def ctor_values [Inhabited T] {V : Type} (LastDim : Nat) (entry : CArray T LastDim)
    (convert : V → T) (values : List V) (_h : values.length ≤ LastDim) :
    Except Fault (ndarrayLast T LastDim) :=
  match valuesFold values.length convert values 0 entry with
  | .ok (index, data) =>
    match forLoop LastDim (fun i d => CArray.write d i default) index data with
    | .ok data' => .ok ⟨data', LastDim⟩
    | .error e => .error e
  | .error e => .error e

/-- `operator[](this Self&& self, std::size_t index)` (lines 64-67), read through the
reference it returns. -/
def subscript (self : ndarrayLast T LastDim) (index : Nat) : Option T :=
  self.m_data.read index

/-- `T operator[](std::size_t index) &&` (lines 69-71): the slot, by value. -/
def subscript_rvalue (self : ndarrayLast T LastDim) (index : Nat) : Option T :=
  self.m_data.read index

/-- The assignment `self[index] = x` through the reference returned by `operator[]`
(lines 64-67): it writes `m_data[index]` and touches no other member. -/
def subscript_assign (self : ndarrayLast T LastDim) (index : Nat) (x : T) :
    Except Fault (ndarrayLast T LastDim) :=
  match CArray.write self.m_data index x with
  | .ok data => .ok { self with m_data := data }
  | .error e => .error e

/-- `dimensions()` (lines 73-75): `std::array{ LastDim }`. -/
def dimensions (_self : ndarrayLast T LastDim) : List Nat :=
  [LastDim]

end ndarrayLast

/-- Value category of the single argument of a construction `ndarray<T, LastDim>(arg)` whose
argument has type `T`: a const lvalue (as in the nested call of line 14) or an rvalue (a
literal, a temporary).  These are the two categories the embedding distinguishes. -/
inductive ValueCategory where
  | const_lvalue
  | rvalue
  deriving DecidableEq, Repr

/-- The construction `ndarray<T, LastDim>(arg)` from one scalar (also with braces), i.e. the
constructor that overload resolution picks among lines 48 and 56.  Both are viable
(`1 <= LastDim`, `T` converts to `T`).  For an rvalue such as a literal, `Values&&` binds an
rvalue reference to it, which ranks above binding `const T&`, so the template is called with a
pack of one value.  For a const lvalue both parameters are `const T&` and the non-template
constructor is preferred.  `entry` is the content of the storage when the constructor body
is entered. -/
def ndarrayLast.construct {T : Type} [Inhabited T] (LastDim : Nat) (entry : CArray T LastDim)
    (cat : ValueCategory) (value : T) (h : 1 ≤ LastDim) : Except Fault (ndarrayLast T LastDim) :=
  match cat with
  | .const_lvalue => ndarrayLast.ctor_value LastDim value
  | .rvalue => ndarrayLast.ctor_values LastDim entry id [value] h

/-! ## `ndarray<T, FirstDim, RestOfDims...>` -/

namespace ndarrayFirst

variable {T Sub : Type} {FirstDim : Nat} {RestOfDims : List Nat}

/-- The defaulted default constructor `constexpr ndarray() = default;` (line 10), run on
storage whose sub-arrays are `entry`: it writes nothing to `m_data` (line 6) and gives
`m_dimSize` and `m_restOfDimSizes` their default member initialisers (lines 7-8). -/
def ctor_defaulted (FirstDim : Nat) (RestOfDims : List Nat) (entry : CArray Sub FirstDim) :
    ndarrayFirst Sub FirstDim RestOfDims :=
  ⟨entry, FirstDim, restOfDimSizesInit RestOfDims⟩

/-- Value-initialisation through the defaulted default constructor (line 10); `subDefault` is
the value-initialised `ndarray<T, RestOfDims...>`. -/
def ctor_default (FirstDim : Nat) (RestOfDims : List Nat) (subDefault : Sub) :
    ndarrayFirst Sub FirstDim RestOfDims :=
  ctor_defaulted FirstDim RestOfDims (CArray.fill FirstDim subDefault)

/-- The constructor `ndarray(const T& value)` (lines 12-16); `subCtor` is
`ndarray<T, RestOfDims...>(value)` with `value` a `const T&`, evaluated in each iteration.
The loop overwrites every slot whatever `m_data` held at entry (`fillLoop_spec`). -/
def ctor_value (FirstDim : Nat) (RestOfDims : List Nat) (subDefault : Sub)
    (subCtor : T → Except Fault Sub) (value : T) :
    Except Fault (ndarrayFirst Sub FirstDim RestOfDims) :=
  match forLoop FirstDim
      (fun i data =>
        match subCtor value with
        | .ok sub => CArray.write data i sub
        | .error e => .error e)
      0 (ctor_default FirstDim RestOfDims subDefault).m_data with
  | .ok data => .ok ⟨data, FirstDim, restOfDimSizesInit RestOfDims⟩
  | .error e => .error e

/-- The range-for of lines 22-25: `for (const auto& elem : list) m_data[index++] = elem;`. -/
def listLoop : List Sub → Nat → CArray Sub FirstDim → Except Fault (CArray Sub FirstDim)
  | [], _, data => .ok data
  | elem :: rest, index, data =>
    match CArray.write data index elem with
    | .ok data' => listLoop rest (index + 1) data'
    | .error e => .error e

/-- The constructor `ndarray(const std::initializer_list<ndarray<T, RestOfDims...>>& list)`
(lines 18-26).  When the length check passes, the loop overwrites every slot whatever `m_data`
held at entry (`ndarrayFirst_listLoop_spec`). -/
def ctor_list (FirstDim : Nat) (RestOfDims : List Nat) (subDefault : Sub) (list : List Sub) :
    Except Fault (ndarrayFirst Sub FirstDim RestOfDims) :=
  if list.length ≠ FirstDim then
    .error (.runtime_error "Initializer list size does not match the allocated dimension.")
  else
    match listLoop list 0 (ctor_default FirstDim RestOfDims subDefault).m_data with
    | .ok data => .ok ⟨data, FirstDim, restOfDimSizesInit RestOfDims⟩
    | .error e => .error e

/-- `operator[](this Self&& self, std::size_t index)` (lines 28-31), read through the
reference it returns. -/
def subscript (self : ndarrayFirst Sub FirstDim RestOfDims) (index : Nat) : Option Sub :=
  self.m_data.read index

/-- `ndarray<T, RestOfDims...> operator[](std::size_t index) &&` (lines 33-35). -/
def subscript_rvalue (self : ndarrayFirst Sub FirstDim RestOfDims) (index : Nat) : Option Sub :=
  self.m_data.read index

/-- The assignment `self[index] = x` through the reference returned by `operator[]`
(lines 28-31). -/
def subscript_assign (self : ndarrayFirst Sub FirstDim RestOfDims) (index : Nat) (x : Sub) :
    Except Fault (ndarrayFirst Sub FirstDim RestOfDims) :=
  match CArray.write self.m_data index x with
  | .ok data => .ok { self with m_data := data }
  | .error e => .error e

/-- `dimensions()` (lines 37-39): `std::array{ FirstDim, (RestOfDims , ...) }`, an array of
two elements whose second is the comma fold.  The pack is not empty in this specialisation;
the first case is there to make the function total. -/
def dimensions (_self : ndarrayFirst Sub FirstDim RestOfDims) : List Nat :=
  match RestOfDims with
  | [] => [FirstDim]
  | r :: rs => [FirstDim, commaFold r rs]

end ndarrayFirst

/-! ## The template at an arbitrary shape -/

namespace ndarray

variable {T : Type}

/-- Value-initialisation `ndarray<T, D0, Ds...>{}` through the defaulted default
constructors (lines 10 and 46). -/
def ctor_default [Inhabited T] : (d : Nat) → (ds : List Nat) → ndarray T d ds
  | LastDim, [] => ndarrayLast.ctor_default LastDim
  | FirstDim, d :: ds => ndarrayFirst.ctor_default FirstDim (d :: ds) (ctor_default d ds)

/-- The constructor `ndarray(const T& value)` at every shape (lines 12-16 and 48-52).  The
nested call of line 14 passes the `const T&` parameter, a const lvalue, so at the innermost
level it is again the constructor of line 48 that runs. -/
def ctor_value [Inhabited T] : (d : Nat) → (ds : List Nat) → T → Except Fault (ndarray T d ds)
  | LastDim, [], value => ndarrayLast.ctor_value LastDim value
  | FirstDim, d :: ds, value =>
    ndarrayFirst.ctor_value FirstDim (d :: ds) (ctor_default d ds) (ctor_value d ds) value

/-- The initializer-list constructor of `ndarray<T, FirstDim, d, ds...>` (lines 18-26). -/
def ctor_list [Inhabited T] (FirstDim d : Nat) (ds : List Nat) (list : List (ndarray T d ds)) :
    Except Fault (ndarray T FirstDim (d :: ds)) :=
  ndarrayFirst.ctor_list FirstDim (d :: ds) (ctor_default d ds) list

/-- The reference-returning `operator[]` (lines 28-31 and 64-67). -/
def subscript : {d : Nat} → {ds : List Nat} → ndarray T d ds → Nat → Option (Slot T ds)
  | _, [], self, index => ndarrayLast.subscript self index
  | _, _ :: _, self, index => ndarrayFirst.subscript self index

/-- The value-returning `operator[]` for rvalues (lines 33-35 and 69-71). -/
def subscript_rvalue : {d : Nat} → {ds : List Nat} → ndarray T d ds → Nat → Option (Slot T ds)
  | _, [], self, index => ndarrayLast.subscript_rvalue self index
  | _, _ :: _, self, index => ndarrayFirst.subscript_rvalue self index

/-- The assignment `self[index] = x`. -/
def subscript_assign : {d : Nat} → {ds : List Nat} → ndarray T d ds → Nat → Slot T ds →
    Except Fault (ndarray T d ds)
  | _, [], self, index, x => ndarrayLast.subscript_assign self index x
  | _, _ :: _, self, index, x => ndarrayFirst.subscript_assign self index x

/-- The member function `dimensions()` (lines 37-39 and 73-75). -/
def dimensions : {d : Nat} → {ds : List Nat} → ndarray T d ds → List Nat
  | _, [], self => ndarrayLast.dimensions self
  | _, _ :: _, self => ndarrayFirst.dimensions self

/-- The data member `m_dimSize` (lines 7 and 44). -/
def m_dimSize : {d : Nat} → {ds : List Nat} → ndarray T d ds → Nat
  | _, [], self => ndarrayLast.m_dimSize self
  | _, _ :: _, self => ndarrayFirst.m_dimSize self

/-- The scalar `self[i0][i1]...[in-1]`, for an index tuple with one index per extent. -/
def element : {d : Nat} → {ds : List Nat} → ndarray T d ds → List Nat → Option T
  | _, [], self, [i] => ndarrayLast.subscript self i
  | _, _ :: _, self, i :: is =>
    match ndarrayFirst.subscript self i with
    | some sub => element sub is
    | none => none
  | _, _, _, _ => none

/-- The scalar slots of the nested `m_data` arrays, in index order. -/
def flatten : {d : Nat} → {ds : List Nat} → ndarray T d ds → List T
  | _, [], self => (ndarrayLast.m_data self).val
  | _, _ :: _, self => ((ndarrayFirst.m_data self).val.map flatten).flatten

end ndarray

/-! ## Formatting -/

/-- The text of the replacement field `{:>{}}` for the argument `""` and width `n`: the empty
string right-aligned in `n` columns, that is `n` spaces. -/
def pad : Nat → String
  | 0 => ""
  | n + 1 => " " ++ pad n

/-- `std::formatter<ndarray<T, LastDim>>::format` (lines 107-118); `fmtT` is the text of `{}`
for a `T`.  The result is the text written to the output iterator. -/
def ndarrayLast.format {T : Type} {LastDim : Nat} (fmtT : T → String)
    (ndarray : ndarrayLast T LastDim) : Except Fault String :=
  match forLoop LastDim
      (fun i out =>
        match ndarray.subscript i with
        | some x => .ok ((if i > 0 then out ++ ", " else out) ++ fmtT x)
        | none => .error .out_of_bounds)
      0 "[" with
  | .ok out => .ok (out ++ "]")
  | .error e => .error e

/-- `std::formatter<ndarray<T, FirstDim, RestOfDims...>>::format_impl` (lines 88-99);
`subFormat` is the text of `{}` for an element of `m_data`, i.e. the `format` of
`std::formatter<ndarray<T, RestOfDims...>>`. -/
def ndarrayFirst.format_impl {Sub : Type} {FirstDim : Nat} {RestOfDims : List Nat}
    (subFormat : Sub → Except Fault String) (ndarray : ndarrayFirst Sub FirstDim RestOfDims)
    (indent_level : Nat) : Except Fault String :=
  match forLoop FirstDim
      (fun i out =>
        match ndarray.m_data.read i with
        | some sub =>
          match subFormat sub with
          | .ok text => .ok ((if i > 0 then out ++ ",\n" else out) ++ pad (indent_level + 2) ++ text)
          | .error e => .error e
        | none => .error .out_of_bounds)
      0 (pad indent_level ++ "[\n") with
  | .ok out => .ok (out ++ "\n" ++ pad indent_level ++ "]")
  | .error e => .error e

/-- `std::formatter<ndarray<T, FirstDim, RestOfDims...>>::format` (lines 83-85). -/
def ndarrayFirst.format {Sub : Type} {FirstDim : Nat} {RestOfDims : List Nat}
    (subFormat : Sub → Except Fault String) (ndarray : ndarrayFirst Sub FirstDim RestOfDims) :
    Except Fault String :=
  ndarrayFirst.format_impl subFormat ndarray 0

/-- The text of `{}` for an `ndarray<T, D0, Ds...>`: the formatter specialisation of lines
102-119 for one extent, that of lines 78-100 otherwise. -/
def ndarray.format {T : Type} (fmtT : T → String) :
    {d : Nat} → {ds : List Nat} → ndarray T d ds → Except Fault String
  | _, [], a => ndarrayLast.format fmtT a
  | _, _ :: _, a => ndarrayFirst.format (ndarray.format fmtT) a

/-- `std::formatter<std::array<T, N>>::format` (lines 126-137). -/
def stdArray_format {T : Type} {N : Nat} (fmtT : T → String) (array : CArray T N) :
    Except Fault String :=
  match forLoop N
      (fun i out =>
        match array.read i with
        | some x => .ok ((if i > 0 then out ++ ", " else out) ++ fmtT x)
        | none => .error .out_of_bounds)
      0 "[" with
  | .ok out => .ok (out ++ "]")
  | .error e => .error e

/-- The text of `{}` for an `int`: decimal digits, with a minus sign when negative. -/
def fmtInt (x : Int) : String :=
  toString x

/-- The text of `{}` for a `std::size_t`. -/
def fmtSize (x : Nat) : String :=
  toString x

/-! ## The example of `main` -/

/-- The array `arr` of line 142:
`ndarray<int, 2, 5>{ ndarray<int, 5>{1, 2, 3}, ndarray<int, 5>{1, 2, 3, 4, 5} }`; `e0` and
`e1` are the contents of the storage of the two rows when their constructors are entered. -/
def main_arr (e0 e1 : CArray Int 5) : Except Fault (ndarray Int 2 [5]) :=
  match ndarrayLast.ctor_values 5 e0 id [(1 : Int), 2, 3] (by decide),
      ndarrayLast.ctor_values 5 e1 id [(1 : Int), 2, 3, 4, 5] (by decide) with
  | .ok r0, .ok r1 => ndarray.ctor_list 2 5 [] [r0, r1]
  | .error e, _ => .error e
  | _, .error e => .error e

/-- The lines printed by `main` (lines 140-149). -/
def main (e0 e1 : CArray Int 5) : Except Fault (List String) :=
  match main_arr e0 e1 with
  | .ok arr =>
    match ndarray.format fmtInt arr,
        stdArray_format fmtSize (⟨ndarray.dimensions arr, rfl⟩ : CArray Nat 2) with
    | .ok text, .ok dims => .ok [text, "Current dimensions of arr: " ++ dims]
    | .error e, _ => .error e
    | _, .error e => .error e
  | .error (.runtime_error what) => .ok [what]
  | .error e => .error e

/-- An index tuple `(i0, ..., in-1)` is within the extents `(D0, ..., Dn-1)`: same length
and `ik < Dk` for every `k`. -/
def InRange : List Nat → List Nat → Prop
  | [], [] => True
  | i :: is, D :: Ds => i < D ∧ InRange is Ds
  | [], _ :: _ => False
  | _ :: _, [] => False

instance InRange.decide : (idx Ds : List Nat) → Decidable (InRange idx Ds)
  | [], [] => isTrue trivial
  | i :: is, D :: Ds =>
    match Nat.decLt i D, InRange.decide is Ds with
    | isTrue h1, isTrue h2 => isTrue ⟨h1, h2⟩
    | isFalse h1, _ => isFalse (fun h => h1 h.1)
    | _, isFalse h2 => isFalse (fun h => h2 h.2)
  | [], _ :: _ => isFalse (fun h => h)
  | _ :: _, [] => isFalse (fun h => h)

/-- The array of shape `(d, ds...)` whose scalar slots all hold `v`, with `m_dimSize` and
`m_restOfDimSizes` as their default member initialisers leave them.  A yardstick for the
constructors, not a function of the source. -/
def ndarray.uniform {T : Type} (v : T) : (d : Nat) → (ds : List Nat) → ndarray T d ds
  | LastDim, [] => (⟨CArray.fill LastDim v, LastDim⟩ : ndarrayLast T LastDim)
  | FirstDim, d :: ds =>
    (⟨CArray.fill FirstDim (ndarray.uniform v d ds), FirstDim, restOfDimSizesInit (d :: ds)⟩ :
      ndarrayFirst (ndarray T d ds) FirstDim (d :: ds))

/-- The data member `m_restOfDimSizes` (line 8) as a list.  Only the specialisation for more
than one extent declares it; for a single extent there is no such member and the list is
empty. -/
def ndarray.m_restOfDimSizes {T : Type} : {d : Nat} → {ds : List Nat} → ndarray T d ds → List Nat
  | _, [], _ => []
  | _, _ :: _, self => (ndarrayFirst.m_restOfDimSizes self).val

/-- The assignment `self[i0][i1]...[in-1] = x` of a scalar: every `operator[]` but the last
yields a reference to a slot of `m_data`, and the last one the scalar that is assigned.  With
values instead of references, the sub-array at `i0` is read, assigned into, and stored back. -/
def ndarray.element_assign {T : Type} :
    {d : Nat} → {ds : List Nat} → ndarray T d ds → List Nat → T → Except Fault (ndarray T d ds)
  | _, [], self, [i], x => ndarrayLast.subscript_assign self i x
  | _, _ :: _, self, i :: is, x =>
    match ndarrayFirst.subscript self i with
    | some sub =>
      match ndarray.element_assign sub is x with
      | .ok sub' => ndarrayFirst.subscript_assign self i sub'
      | .error e => .error e
    | none => .error .out_of_bounds
  | _, _, _, _, _ => .error .out_of_bounds

/-! ## Loops and slot accesses -/

/-- The loop equation of `for (; i < hi; ++i) body`: the fuel of `forLoopAux` is not
observable. -/
theorem forLoop_unfold {σ : Type} (hi : Nat) (body : Nat → σ → Except Fault σ) (i : Nat)
    (s : σ) :
    forLoop hi body i s =
      if i < hi then
        match body i s with
        | .ok s' => forLoop hi body (i + 1) s'
        | .error e => .error e
      else .ok s := by
  unfold forLoop
  by_cases h : i < hi
  · obtain ⟨k, hk⟩ : ∃ k, hi - i = k + 1 := ⟨hi - i - 1, by omega⟩
    have hk' : hi - (i + 1) = k := by omega
    rw [hk, hk']
    simp [forLoopAux, h]
  · have h0 : hi - i = 0 := by omega
    rw [h0]
    simp [forLoopAux, h]

theorem CArray_write_ok {α : Type} {n : Nat} (a : CArray α n) (i : Nat) (x : α) (h : i < n) :
    CArray.write a i x = .ok ⟨a.val.set i x, (List.length_set a.val i x).trans a.property⟩ := by
  simp [CArray.write, h]

theorem CArray_write_error {α : Type} {n : Nat} (a : CArray α n) (i : Nat) (x : α)
    (h : ¬ i < n) : CArray.write a i x = .error .out_of_bounds := by
  simp [CArray.write, h]

theorem list_take_succ_set {α : Type} (l : List α) (i : Nat) (x : α) (h : i < l.length) :
    (l.set i x).take (i + 1) = l.take i ++ [x] := by
  induction l generalizing i with
  | nil => simp at h
  | cons y ys ih =>
    cases i with
    | zero => simp
    | succ j =>
      have hj : j < ys.length := by simpa using h
      simp [ih j hj]

/-- A loop that stores the same `x` in slot `i`, `i + 1`, ... up to the extent succeeds and
leaves the slots below `i` as they were. -/
theorem fillLoopAux_spec {α : Type} {n : Nat} (x : α) :
    ∀ (k i : Nat) (data : CArray α n), i + k = n →
      ∃ d : CArray α n, forLoopAux n (fun j d => CArray.write d j x) k i data = .ok d ∧
        d.val = data.val.take i ++ List.replicate k x := by
  intro k
  induction k with
  | zero =>
    intro i data h
    refine ⟨data, rfl, ?_⟩
    have : data.val.length ≤ i := by rw [data.property]; omega
    simp [List.take_of_length_le this]
  | succ k ih =>
    intro i data h
    have hi : i < n := by omega
    obtain ⟨d, hd, hval⟩ := ih (i + 1)
      ⟨data.val.set i x, (List.length_set data.val i x).trans data.property⟩ (by omega)
    refine ⟨d, ?_, ?_⟩
    · simp only [forLoopAux, hi, if_true, CArray_write_ok data i x hi]
      exact hd
    · rw [hval]
      have hlen : i < data.val.length := by rw [data.property]; exact hi
      simp only [list_take_succ_set data.val i x hlen, List.replicate_succ,
        List.append_assoc, List.singleton_append]

theorem fillLoop_spec {α : Type} {n : Nat} (x : α) (i : Nat) (data : CArray α n) (h : i ≤ n) :
    ∃ d : CArray α n, forLoop n (fun j d => CArray.write d j x) i data = .ok d ∧
      d.val = data.val.take i ++ List.replicate (n - i) x :=
  fillLoopAux_spec x (n - i) i data (by omega)

theorem list_drop_set_lt {α : Type} (l : List α) (i j : Nat) (x : α) (h : i < j) :
    (l.set i x).drop j = l.drop j := by
  induction l generalizing i j with
  | nil => simp
  | cons y ys ih =>
    cases j with
    | zero => omega
    | succ j' =>
      cases i with
      | zero => simp
      | succ i' => simp [ih i' j' (by omega)]

/-! ## What the constructors build -/

theorem ndarrayLast_ctor_value_eq {T : Type} [Inhabited T] (LastDim : Nat) (value : T) :
    ndarrayLast.ctor_value LastDim value = .ok ⟨CArray.fill LastDim value, LastDim⟩ := by
  obtain ⟨d, hd, hval⟩ :=
    fillLoop_spec value 0 (ndarrayLast.ctor_default LastDim : ndarrayLast T LastDim).m_data
      (Nat.zero_le _)
  have hfill : d = CArray.fill LastDim value := by
    apply Subtype.ext
    simpa [CArray.fill] using hval
  simp only [ndarrayLast.ctor_value, hd, hfill]

theorem ndarrayFirst_ctor_value_eq {T Sub : Type} (FirstDim : Nat) (RestOfDims : List Nat)
    (subDefault : Sub) (subCtor : T → Except Fault Sub) (value : T) (sub : Sub)
    (hsub : subCtor value = .ok sub) :
    ndarrayFirst.ctor_value FirstDim RestOfDims subDefault subCtor value =
      .ok ⟨CArray.fill FirstDim sub, FirstDim, restOfDimSizesInit RestOfDims⟩ := by
  obtain ⟨d, hd, hval⟩ :=
    fillLoop_spec sub 0 (ndarrayFirst.ctor_default FirstDim RestOfDims subDefault).m_data
      (Nat.zero_le _)
  have hfill : d = CArray.fill FirstDim sub := by
    apply Subtype.ext
    simpa [CArray.fill] using hval
  simp only [ndarrayFirst.ctor_value, hsub, hd, hfill]

theorem ndarrayFirst_listLoop_spec {Sub : Type} {FirstDim : Nat} :
    ∀ (list : List Sub) (index : Nat) (data : CArray Sub FirstDim),
      index + list.length ≤ FirstDim →
      ∃ d : CArray Sub FirstDim, ndarrayFirst.listLoop list index data = .ok d ∧
        d.val = data.val.take index ++ list ++ data.val.drop (index + list.length) := by
  intro list
  induction list with
  | nil =>
    intro index data _
    exact ⟨data, rfl, by simp⟩
  | cons elem rest ih =>
    intro index data h
    have hlen : index + 1 + rest.length ≤ FirstDim := by
      simp only [List.length_cons] at h; omega
    have hi : index < FirstDim := by omega
    obtain ⟨d, hd, hval⟩ := ih (index + 1)
      ⟨data.val.set index elem, (List.length_set data.val index elem).trans data.property⟩ hlen
    refine ⟨d, ?_, ?_⟩
    · simp only [ndarrayFirst.listLoop, CArray_write_ok data index elem hi]
      exact hd
    · rw [hval]
      have hl : index < data.val.length := by rw [data.property]; exact hi
      have e1 : index + (elem :: rest).length = index + 1 + rest.length := by
        simp only [List.length_cons]; omega
      rw [e1]
      simp only [list_take_succ_set data.val index elem hl,
        list_drop_set_lt data.val index (index + 1 + rest.length) elem (by omega),
        List.append_assoc, List.singleton_append]

theorem ndarrayFirst_ctor_list_eq {Sub : Type} (FirstDim : Nat) (RestOfDims : List Nat)
    (subDefault : Sub) (list : List Sub) (hlen : list.length = FirstDim) :
    ndarrayFirst.ctor_list FirstDim RestOfDims subDefault list =
      .ok ⟨⟨list, hlen⟩, FirstDim, restOfDimSizesInit RestOfDims⟩ := by
  obtain ⟨d, hd, hval⟩ := ndarrayFirst_listLoop_spec list 0
    (ndarrayFirst.ctor_default FirstDim RestOfDims subDefault).m_data (by omega)
  have hlist : d = ⟨list, hlen⟩ := by
    apply Subtype.ext
    have hdrop : (ndarrayFirst.ctor_default FirstDim RestOfDims subDefault).m_data.val.drop
        (0 + list.length) = [] := by
      apply List.drop_of_length_le
      rw [(ndarrayFirst.ctor_default FirstDim RestOfDims subDefault).m_data.property]
      omega
    rw [hval, hdrop]
    simp
  simp only [ndarrayFirst.ctor_list, hlen, ne_eq, not_true_eq_false, if_false, hd, hlist]

theorem ndarrayLast_valuesFold_spec {T V : Type} {LastDim : Nat} (count : Nat)
    (convert : V → T) :
    ∀ (vs : List V) (index : Nat) (data : CArray T LastDim),
      index + vs.length ≤ count → index + vs.length ≤ LastDim →
      ∃ d : CArray T LastDim,
        ndarrayLast.valuesFold count convert vs index data = .ok (index + vs.length, d) ∧
        d.val = data.val.take index ++ vs.map convert ++ data.val.drop (index + vs.length) := by
  intro vs
  induction vs with
  | nil =>
    intro index data _ _
    exact ⟨data, rfl, by simp⟩
  | cons v rest ih =>
    intro index data hc hn
    simp only [List.length_cons] at hc hn
    have hguard : index < count := by omega
    have hi : index < LastDim := by omega
    obtain ⟨d, hd, hval⟩ := ih (index + 1)
      ⟨data.val.set index (convert v),
        (List.length_set data.val index (convert v)).trans data.property⟩
      (by omega) (by omega)
    have e1 : index + (v :: rest).length = index + 1 + rest.length := by
      simp only [List.length_cons]; omega
    refine ⟨d, ?_, ?_⟩
    · simp only [ndarrayLast.valuesFold, hguard, if_true,
        CArray_write_ok data index (convert v) hi]
      rw [e1]
      exact hd
    · rw [hval, e1]
      have hl : index < data.val.length := by rw [data.property]; exact hi
      simp only [list_take_succ_set data.val index (convert v) hl,
        list_drop_set_lt data.val index (index + 1 + rest.length) (convert v) (by omega),
        List.append_assoc, List.singleton_append, List.map_cons]

theorem ndarrayLast_ctor_values_spec {T V : Type} [Inhabited T] (LastDim : Nat)
    (entry : CArray T LastDim) (convert : V → T) (values : List V)
    (h : values.length ≤ LastDim) :
    ∃ a : ndarrayLast T LastDim,
      ndarrayLast.ctor_values LastDim entry convert values h = .ok a ∧
      a.m_data.val =
        values.map convert ++ List.replicate (LastDim - values.length) default ∧
      a.m_dimSize = LastDim := by
  obtain ⟨d, hd, hval⟩ := ndarrayLast_valuesFold_spec values.length convert values 0
    entry (by omega) (by omega)
  have h0 : 0 + values.length = values.length := by omega
  rw [h0] at hd hval
  obtain ⟨d', hd', hval'⟩ := fillLoop_spec (default : T) values.length d h
  refine ⟨⟨d', LastDim⟩, ?_, ?_, rfl⟩
  · simp only [ndarrayLast.ctor_values, hd, hd']
  · show d'.val = _
    rw [hval', hval]
    simp [List.take_append_eq_append_take]

/-- The values constructor builds the same array from every content of the storage at
entry: the converted values, then `T{}` up to the extent. -/
theorem ndarrayLast_ctor_values_eq {T V : Type} [Inhabited T] (LastDim : Nat)
    (entry : CArray T LastDim) (convert : V → T) (values : List V)
    (h : values.length ≤ LastDim) :
    ndarrayLast.ctor_values LastDim entry convert values h =
      .ok ⟨⟨values.map convert ++ List.replicate (LastDim - values.length) default,
        by rw [List.length_append, List.length_map, List.length_replicate]; omega⟩,
        LastDim⟩ := by
  obtain ⟨a, ha, hval, hdim⟩ := ndarrayLast_ctor_values_spec LastDim entry convert values h
  rw [ha]
  obtain ⟨data, dim⟩ := a
  simp only at hval hdim
  subst hdim
  congr 2
  exact Subtype.ext hval

theorem ndarray_ctor_default_eq_uniform {T : Type} [Inhabited T] (d : Nat) (ds : List Nat) :
    (ndarray.ctor_default d ds : ndarray T d ds) = ndarray.uniform default d ds := by
  induction ds generalizing d with
  | nil => rfl
  | cons d' ds ih =>
    simp only [ndarray.ctor_default, ndarray.uniform, ndarrayFirst.ctor_default,
      ndarrayFirst.ctor_defaulted, ih d']

theorem ndarray_ctor_value_eq_uniform {T : Type} [Inhabited T] (d : Nat) (ds : List Nat)
    (value : T) : ndarray.ctor_value d ds value = .ok (ndarray.uniform value d ds) := by
  induction ds generalizing d with
  | nil => exact ndarrayLast_ctor_value_eq d value
  | cons d' ds ih =>
    simp only [ndarray.ctor_value, ndarray.uniform]
    exact ndarrayFirst_ctor_value_eq d (d' :: ds) _ _ value _ (ih d')

theorem CArray_read_fill {α : Type} (n : Nat) (x : α) (i : Nat) (h : i < n) :
    CArray.read (CArray.fill n x) i = some x := by
  simp [CArray.read, CArray.fill, h]

theorem ndarray_element_uniform {T : Type} (v : T) (d : Nat) (ds : List Nat) :
    ∀ idx : List Nat, InRange idx (d :: ds) →
      ndarray.element (ndarray.uniform v d ds) idx = some v := by
  induction ds generalizing d with
  | nil =>
    intro idx h
    match idx, h with
    | [i], h =>
      have hi : i < d := h.1
      simp only [ndarray.element, ndarray.uniform, ndarrayLast.subscript]
      exact CArray_read_fill d v i hi
    | _ :: _ :: _, h => exact absurd h.2 (by simp [InRange])
  | cons d' ds ih =>
    intro idx h
    match idx, h with
    | i :: is, h =>
      have hi : i < d := h.1
      have hrest : InRange is (d' :: ds) := h.2
      simp only [ndarray.element, ndarray.uniform, ndarrayFirst.subscript,
        CArray_read_fill d _ i hi]
      exact ih d' is hrest

theorem list_flatten_replicate_replicate {α : Type} (n m : Nat) (v : α) :
    (List.replicate n (List.replicate m v)).flatten = List.replicate (n * m) v := by
  induction n with
  | zero => simp
  | succ n ih =>
    rw [List.replicate_succ, List.flatten_cons, ih, Nat.succ_mul, Nat.add_comm (n * m) m,
      List.replicate_add]

theorem ndarray_flatten_uniform {T : Type} (v : T) (d : Nat) (ds : List Nat) :
    ndarray.flatten (ndarray.uniform v d ds) = List.replicate (d * ds.prod) v := by
  induction ds generalizing d with
  | nil => simp [ndarray.flatten, ndarray.uniform, CArray.fill]
  | cons d' ds ih =>
    simp only [ndarray.flatten, ndarray.uniform, CArray.fill, List.map_replicate, ih d',
      list_flatten_replicate_replicate, List.prod_cons]

theorem CArray_read_write {α : Type} {n : Nat} (a : CArray α n) (i : Nat) (x : α)
    (h : i < n) :
    ∃ d : CArray α n, CArray.write a i x = .ok d ∧ CArray.read d i = some x ∧
      ∀ j : Nat, j ≠ i → CArray.read d j = CArray.read a j := by
  refine ⟨_, CArray_write_ok a i x h, ?_, ?_⟩
  · have hl : i < a.val.length := by rw [a.property]; exact h
    show (a.val.set i x)[i]? = some x
    rw [List.getElem?_set]
    simp [hl, h]
  · intro j hj
    simp [CArray.read, List.getElem?_set, Ne.symm hj]

theorem list_length_flatten_map {α β : Type} (f : β → List α) (m : Nat)
    (hf : ∀ b : β, (f b).length = m) (l : List β) :
    ((l.map f).flatten).length = l.length * m := by
  induction l with
  | nil => simp
  | cons b bs ih =>
    rw [List.map_cons, List.flatten_cons, List.length_append, ih, hf b, List.length_cons,
      Nat.succ_mul, Nat.add_comm]

/-! ## Loops that write separated items -/

theorem intercalate_go_append (sep : String) :
    ∀ (xs : List String) (p acc : String),
      String.intercalate.go (p ++ acc) sep xs = p ++ String.intercalate.go acc sep xs := by
  intro xs
  induction xs with
  | nil => intro p acc; rfl
  | cons x xs ih =>
    intro p acc
    simp only [String.intercalate.go]
    rw [String.append_assoc p acc sep, String.append_assoc p (acc ++ sep) x, ih]

theorem sepLoopAux_spec (sep : String) (n : Nat) (body : Nat → String → Except Fault String)
    (items : List String)
    (hbody : ∀ (i : Nat) (out : String), i < n →
      ∃ x : String, items[i]? = some x ∧
        body i out = .ok ((if i > 0 then out ++ sep else out) ++ x)) :
    ∀ (k i : Nat) (out : String), 1 ≤ i → i + k = n → items.length = n →
      forLoopAux n body k i out = .ok (String.intercalate.go out sep (items.drop i)) := by
  intro k
  induction k with
  | zero =>
    intro i out _ hik hlen
    have hdrop : items.drop i = [] := List.drop_of_length_le (by omega)
    simp only [forLoopAux, hdrop, String.intercalate.go]
  | succ k ih =>
    intro i out h1 hik hlen
    have hi : i < n := by omega
    obtain ⟨x, hx, hb⟩ := hbody i out hi
    have hpos : i > 0 := h1
    have hil : i < items.length := by omega
    have hxi : items[i] = x := by
      have := List.getElem?_eq_getElem hil
      rw [this] at hx
      exact Option.some.inj hx
    have hdrop : items.drop i = x :: items.drop (i + 1) := by
      rw [← hxi]
      exact List.drop_eq_getElem_cons hil
    simp only [forLoopAux, hi, if_true, hb, hpos, hdrop, String.intercalate.go]
    exact ih (i + 1) (out ++ sep ++ x) (by omega) (by omega) hlen

/-- A loop over `n` items that writes `sep` before every item but the first appends the
items joined by `sep`. -/
theorem sepLoop_spec (sep : String) (n : Nat) (body : Nat → String → Except Fault String)
    (items : List String) (hlen : items.length = n)
    (hbody : ∀ (i : Nat) (out : String), i < n →
      ∃ x : String, items[i]? = some x ∧
        body i out = .ok ((if i > 0 then out ++ sep else out) ++ x))
    (init : String) :
    forLoop n body 0 init = .ok (init ++ sep.intercalate items) := by
  cases n with
  | zero =>
    have : items = [] := List.length_eq_zero.mp hlen
    subst this
    simp [forLoop, forLoopAux, String.intercalate]
  | succ m =>
    obtain ⟨x, hx, hb⟩ := hbody 0 init (by omega)
    match items, hlen, hx with
    | y :: ys, hlen, hx =>
      have hxy : y = x := by simpa using hx
      subst hxy
      have haux := sepLoopAux_spec sep (m + 1) body (y :: ys) hbody m 1 (init ++ y)
        (by omega) (by omega) hlen
      have hb' : body 0 init = .ok (init ++ y) := by simpa using hb
      simp only [forLoop, Nat.sub_zero, forLoopAux, Nat.zero_lt_succ, if_true, hb', Nat.zero_add]
      rw [haux]
      simp only [List.drop_succ_cons, List.drop_zero, String.intercalate, intercalate_go_append]

theorem ndarrayLast_format_eq {T : Type} {LastDim : Nat} (fmtT : T → String)
    (a : ndarrayLast T LastDim) :
    ndarrayLast.format fmtT a =
      .ok ("[" ++ ", ".intercalate (a.m_data.val.map fmtT) ++ "]") := by
  have hloop := sepLoop_spec ", " LastDim
    (fun i out =>
      match a.subscript i with
      | some x => .ok ((if i > 0 then out ++ ", " else out) ++ fmtT x)
      | none => .error .out_of_bounds)
    (a.m_data.val.map fmtT) (by simp [a.m_data.property])
    (by
      intro i out hi
      have hil : i < a.m_data.val.length := by rw [a.m_data.property]; exact hi
      refine ⟨fmtT a.m_data.val[i], by simp [List.getElem?_eq_getElem hil], ?_⟩
      simp only [ndarrayLast.subscript, CArray.read, List.getElem?_eq_getElem hil])
    "["
  simp only [ndarrayLast.format, hloop]

theorem stdArray_format_eq {T : Type} {N : Nat} (fmtT : T → String) (array : CArray T N) :
    stdArray_format fmtT array = .ok ("[" ++ ", ".intercalate (array.val.map fmtT) ++ "]") := by
  have hloop := sepLoop_spec ", " N
    (fun i out =>
      match array.read i with
      | some x => .ok ((if i > 0 then out ++ ", " else out) ++ fmtT x)
      | none => .error .out_of_bounds)
    (array.val.map fmtT) (by simp [array.property])
    (by
      intro i out hi
      have hil : i < array.val.length := by rw [array.property]; exact hi
      refine ⟨fmtT array.val[i], by simp [List.getElem?_eq_getElem hil], ?_⟩
      simp only [CArray.read, List.getElem?_eq_getElem hil])
    "["
  simp only [stdArray_format, hloop]

theorem ndarrayFirst_format_impl_eq {Sub : Type} {FirstDim : Nat} {RestOfDims : List Nat}
    (subFormat : Sub → Except Fault String) (g : Sub → String)
    (hsub : ∀ sub : Sub, subFormat sub = .ok (g sub))
    (a : ndarrayFirst Sub FirstDim RestOfDims) (indent_level : Nat) :
    ndarrayFirst.format_impl subFormat a indent_level =
      .ok (pad indent_level ++ "[\n" ++
        ",\n".intercalate (a.m_data.val.map (fun sub => pad (indent_level + 2) ++ g sub)) ++
        "\n" ++ pad indent_level ++ "]") := by
  have hloop := sepLoop_spec ",\n" FirstDim
    (fun i out =>
      match a.m_data.read i with
      | some sub =>
        match subFormat sub with
        | .ok text =>
          .ok ((if i > 0 then out ++ ",\n" else out) ++ pad (indent_level + 2) ++ text)
        | .error e => .error e
      | none => .error .out_of_bounds)
    (a.m_data.val.map (fun sub => pad (indent_level + 2) ++ g sub))
    (by simp [a.m_data.property])
    (by
      intro i out hi
      have hil : i < a.m_data.val.length := by rw [a.m_data.property]; exact hi
      refine ⟨pad (indent_level + 2) ++ g a.m_data.val[i],
        by simp [List.getElem?_eq_getElem hil], ?_⟩
      simp only [CArray.read, List.getElem?_eq_getElem hil, hsub, String.append_assoc])
    (pad indent_level ++ "[\n")
  simp only [ndarrayFirst.format_impl, hloop]

theorem intercalate_go_length (sep : String) :
    ∀ (xs : List String) (acc : String),
      (String.intercalate.go acc sep xs).length =
        acc.length + (xs.map String.length).sum + sep.length * xs.length := by
  intro xs
  induction xs with
  | nil => intro acc; simp [String.intercalate.go]
  | cons x xs ih =>
    intro acc
    simp only [String.intercalate.go, ih, String.length_append, List.map_cons, List.sum_cons,
      List.length_cons, Nat.mul_succ]
    omega

theorem intercalate_length (sep : String) (l : List String) :
    (sep.intercalate l).length = (l.map String.length).sum + sep.length * (l.length - 1) := by
  cases l with
  | nil => rfl
  | cons x xs =>
    simp only [String.intercalate, intercalate_go_length, List.map_cons, List.sum_cons,
      List.length_cons, Nat.add_sub_cancel]

theorem intercalate_go_not_mem (sep : String) (c : Char) (hsep : c ∉ sep.data) :
    ∀ (xs : List String) (acc : String), c ∉ acc.data → (∀ x ∈ xs, c ∉ x.data) →
      c ∉ (String.intercalate.go acc sep xs).data := by
  intro xs
  induction xs with
  | nil => intro acc hacc _; simpa [String.intercalate.go] using hacc
  | cons x xs ih =>
    intro acc hacc hxs
    simp only [String.intercalate.go]
    apply ih
    · simp only [String.data_append, List.mem_append, not_or]
      exact ⟨⟨hacc, hsep⟩, hxs x (List.mem_cons_self x xs)⟩
    · intro y hy
      exact hxs y (List.mem_cons_of_mem x hy)

theorem intercalate_not_mem (sep : String) (c : Char) (hsep : c ∉ sep.data) (l : List String)
    (hl : ∀ x ∈ l, c ∉ x.data) : c ∉ (sep.intercalate l).data := by
  cases l with
  | nil => simp [String.intercalate]
  | cons x xs =>
    simp only [String.intercalate]
    exact intercalate_go_not_mem sep c hsep xs x (hl x (List.mem_cons_self x xs))
      (fun y hy => hl y (List.mem_cons_of_mem x hy))

theorem commaFold_eq_getLast (r : Nat) (rs : List Nat) :
    commaFold r rs = (r :: rs).getLast (List.cons_ne_nil r rs) := by
  induction rs generalizing r with
  | nil => rfl
  | cons r' rs ih =>
    rw [commaFold, ih r', List.getLast_cons (List.cons_ne_nil r' rs)]

/-! ## Assignment through `operator[]` -/

theorem CArray_read_some {α : Type} {n : Nat} (a : CArray α n) (i : Nat) (h : i < n) :
    ∃ r : α, CArray.read a i = some r := by
  have hl : i < a.val.length := by rw [a.property]; exact h
  exact ⟨a.val[i], List.getElem?_eq_getElem hl⟩

theorem ndarray_element_assign_spec {T : Type} (ds : List Nat) :
    ∀ (d : Nat) (a : ndarray T d ds) (idx : List Nat) (x : T), InRange idx (d :: ds) →
      ∃ a' : ndarray T d ds, ndarray.element_assign a idx x = .ok a' ∧
        ndarray.element a' idx = some x ∧
        (∀ idx' : List Nat, idx' ≠ idx → ndarray.element a' idx' = ndarray.element a idx') ∧
        ndarray.m_dimSize a' = ndarray.m_dimSize a ∧
        ndarray.m_restOfDimSizes a' = ndarray.m_restOfDimSizes a := by
  induction ds with
  | nil =>
    intro d a idx x h
    match idx, h with
    | [i], h =>
      have hi : i < d := h.1
      obtain ⟨data, hw, hr, hframe⟩ := CArray_read_write (ndarrayLast.m_data a) i x hi
      refine ⟨(⟨data, ndarrayLast.m_dimSize a⟩ : ndarrayLast T d), ?_, ?_, ?_, rfl, rfl⟩
      · simp only [ndarray.element_assign, ndarrayLast.subscript_assign, hw]
      · simp only [ndarray.element, ndarrayLast.subscript, hr]
      · intro idx' hne
        match idx', hne with
        | [], _ => simp only [ndarray.element]
        | [j], hne =>
          have hji : j ≠ i := fun e => hne (by rw [e])
          simp only [ndarray.element, ndarrayLast.subscript, hframe j hji]
        | _ :: _ :: _, _ => simp only [ndarray.element]
    | _ :: _ :: _, h => exact absurd h.2 (by simp [InRange])
  | cons d' ds ih =>
    intro d a idx x h
    match idx, h with
    | i :: is, h =>
      have hi : i < d := h.1
      have hrest : InRange is (d' :: ds) := h.2
      obtain ⟨sub, hsub⟩ := CArray_read_some (ndarrayFirst.m_data a) i hi
      obtain ⟨sub', hsub', hget, hother, _, _⟩ := ih d' sub is x hrest
      obtain ⟨data, hw, hr, hframe⟩ := CArray_read_write (ndarrayFirst.m_data a) i sub' hi
      refine ⟨(⟨data, ndarrayFirst.m_dimSize a, ndarrayFirst.m_restOfDimSizes a⟩ :
        ndarrayFirst (ndarray T d' ds) d (d' :: ds)), ?_, ?_, ?_, rfl, rfl⟩
      · simp only [ndarray.element_assign, ndarrayFirst.subscript, hsub, hsub',
          ndarrayFirst.subscript_assign, hw]
      · simp only [ndarray.element, ndarrayFirst.subscript, hr, hget]
      · intro idx' hne
        match idx', hne with
        | [], _ => simp only [ndarray.element]
        | j :: js, hne =>
          by_cases hji : j = i
          · subst hji
            have hjs : js ≠ is := fun e => hne (by rw [e])
            simp only [ndarray.element, ndarrayFirst.subscript, hr, hsub, hother js hjs]
          · simp only [ndarray.element, ndarrayFirst.subscript, hframe j hji]

/-! ## Claims -/

/-- C1, shape fidelity, evaluated at the declared shape `[2, 3, 5]`: for every
`ndarray<int, 2, 3, 5>`, `dimensions()` is the two-element array `[2, 5]`; the middle extent
is lost by the comma fold of line 38, so the result is not `[2, 3, 5]`. -/
theorem dimensions_of_shape_2_3_5 (a : ndarray Int 2 [3, 5]) :
    ndarray.dimensions a = [2, 5] ∧ (ndarray.dimensions a).length = 2 ∧
      ndarray.dimensions a ≠ [2, 3, 5] := by
  refine ⟨rfl, rfl, ?_⟩
  intro h
  have h3 : (ndarray.dimensions a).length = 3 := by rw [h]; rfl
  have h2 : (ndarray.dimensions a).length = 2 := rfl
  omega

/-- C2, shape-mismatch rejection: the initializer-list constructor of a multi-dimensional
array ends in the `std::runtime_error` of line 20 exactly when the list's length differs from
`FirstDim`, and it produces an instance exactly when the length equals `FirstDim`; the
instance then holds the list itself, neither truncated nor padded. -/
theorem ctor_list_rejects_iff_length_differs {T : Type} [Inhabited T] (FirstDim d : Nat)
    (ds : List Nat) (list : List (ndarray T d ds)) :
    (ndarray.ctor_list FirstDim d ds list =
        .error (.runtime_error "Initializer list size does not match the allocated dimension.")
      ↔ list.length ≠ FirstDim) ∧
    ((∃ a : ndarrayFirst (ndarray T d ds) FirstDim (d :: ds),
        ndarray.ctor_list FirstDim d ds list = .ok a ∧ a.m_data.val = list)
      ↔ list.length = FirstDim) := by
  by_cases hlen : list.length = FirstDim
  · have hok := ndarrayFirst_ctor_list_eq FirstDim (d :: ds)
      (ndarray.ctor_default d ds : ndarray T d ds) list hlen
    constructor
    · constructor
      · intro herr
        have : (Except.ok _ : Except Fault _) = .error _ := hok.symm.trans herr
        cases this
      · intro hne
        exact absurd hlen hne
    · constructor
      · intro _
        exact hlen
      · intro _
        exact ⟨_, hok, rfl⟩
  · have herr : ndarray.ctor_list FirstDim d ds list =
        .error (.runtime_error
          "Initializer list size does not match the allocated dimension.") := by
      simp only [ndarray.ctor_list, ndarrayFirst.ctor_list, ne_eq, hlen, not_false_eq_true,
        if_true]
    constructor
    · constructor
      · intro _
        exact hlen
      · intro _
        exact herr
    · constructor
      · rintro ⟨a, ha, _⟩
        have : (Except.error _ : Except Fault _) = .ok a := herr.symm.trans ha
        cases this
      · intro h
        exact absurd h hlen

/-- C3, list construction preserves order: from a list of exactly `FirstDim` sub-arrays the
initializer-list constructor succeeds, and for every `i < FirstDim` the list has an `i`-th
sub-array `r` and both `operator[]` overloads read `r` at slot `i`.  The slot type is
`ndarray<T, Ds...>` when more extents follow and `T` for a single extent. -/
theorem ctor_list_preserves_order {T : Type} [Inhabited T] (FirstDim d : Nat) (ds : List Nat)
    (list : List (ndarray T d ds)) (hlen : list.length = FirstDim) :
    (∃ a : ndarray T FirstDim (d :: ds), ndarray.ctor_list FirstDim d ds list = .ok a ∧
      ∀ i : Nat, i < FirstDim →
        ∃ r : ndarray T d ds, list[i]? = some r ∧
          ndarray.subscript a i = some r ∧ ndarray.subscript_rvalue a i = some r) ∧
    Slot T (d :: ds) = ndarray T d ds ∧ Slot T [] = T := by
  refine ⟨⟨_, ndarrayFirst_ctor_list_eq FirstDim (d :: ds)
      (ndarray.ctor_default d ds : ndarray T d ds) list hlen, ?_⟩, rfl, rfl⟩
  intro i hi
  have hi' : i < list.length := hlen ▸ hi
  have hget : list[i]? = some list[i] := List.getElem?_eq_getElem hi'
  exact ⟨list[i], hget, hget, hget⟩

/-- Witness of C3 on an `ndarray<int, 2, 2>` built from the rows `[1, 2]` and `[3, 4]`. -/
theorem ctor_list_preserves_order_witness :
    ([(⟨⟨[1, 2], rfl⟩, 2⟩ : ndarray Int 2 []), ⟨⟨[3, 4], rfl⟩, 2⟩].length = 2) ∧
    ((∃ a : ndarray Int 2 [2],
        ndarray.ctor_list 2 2 [] [(⟨⟨[1, 2], rfl⟩, 2⟩ : ndarray Int 2 []), ⟨⟨[3, 4], rfl⟩, 2⟩]
          = .ok a ∧
        ∀ i : Nat, i < 2 →
          ∃ r : ndarray Int 2 [],
            [(⟨⟨[1, 2], rfl⟩, 2⟩ : ndarray Int 2 []), ⟨⟨[3, 4], rfl⟩, 2⟩][i]? = some r ∧
            ndarray.subscript a i = some r ∧ ndarray.subscript_rvalue a i = some r) ∧
      Slot Int [2] = ndarray Int 2 [] ∧ Slot Int [] = Int) :=
  ⟨rfl, ctor_list_preserves_order 2 2 []
    [(⟨⟨[1, 2], rfl⟩, 2⟩ : ndarray Int 2 []), ⟨⟨[3, 4], rfl⟩, 2⟩] rfl⟩

/-- C4, the values constructor fills and then defaults: whatever the storage holds when the
constructor template of lines 54-62 is entered, for `k <= LastDim` values it succeeds, slot
`i` holds the converted `i`-th value for every `i < k`, and slot `i` holds `T{}` for every
`k <= i < LastDim`. -/
theorem ctor_values_fills_then_defaults {T V : Type} [Inhabited T] (LastDim : Nat)
    (entry : CArray T LastDim) (convert : V → T) (values : List V)
    (h : values.length ≤ LastDim) :
    ∃ a : ndarrayLast T LastDim,
      ndarrayLast.ctor_values LastDim entry convert values h = .ok a ∧
      (∀ i : Nat, i < values.length →
        ∃ v : V, values[i]? = some v ∧ a.subscript i = some (convert v)) ∧
      (∀ i : Nat, values.length ≤ i → i < LastDim → a.subscript i = some default) := by
  obtain ⟨a, ha, hval, _⟩ := ndarrayLast_ctor_values_spec LastDim entry convert values h
  refine ⟨a, ha, ?_, ?_⟩
  · intro i hi
    refine ⟨values[i], List.getElem?_eq_getElem hi, ?_⟩
    have hi' : i < (values.map convert).length := by simpa using hi
    simp only [ndarrayLast.subscript, CArray.read, hval, List.getElem?_append_left hi']
    simp [hi]
  · intro i hk hi
    have hk' : (values.map convert).length ≤ i := by simpa using hk
    simp only [ndarrayLast.subscript, CArray.read, hval, List.getElem?_append_right hk']
    have : i - values.length < LastDim - values.length := by omega
    simp [this]

/-- Witness of C4 at the worked case of line 142, `ndarray<int, 5>{1, 2, 3}`, on storage
that holds `9` in every slot at entry. -/
theorem ctor_values_fills_then_defaults_witness :
    [(1 : Int), 2, 3].length ≤ 5 ∧
    ∃ a : ndarrayLast Int 5,
      ndarrayLast.ctor_values 5 (⟨[9, 9, 9, 9, 9], rfl⟩ : CArray Int 5) id [(1 : Int), 2, 3]
        (by decide) = .ok a ∧
      (∀ i : Nat, i < [(1 : Int), 2, 3].length →
        ∃ v : Int, [(1 : Int), 2, 3][i]? = some v ∧ a.subscript i = some (id v)) ∧
      (∀ i : Nat, [(1 : Int), 2, 3].length ≤ i → i < 5 → a.subscript i = some default) :=
  ⟨by decide, ctor_values_fills_then_defaults 5 (⟨[9, 9, 9, 9, 9], rfl⟩ : CArray Int 5) id
    [(1 : Int), 2, 3] (by decide)⟩

/-- C5, broadcast, evaluated at the one-dimensional construction `ndarray<int, 2>(7)`: the
argument is an rvalue, the constructor template of line 56 is the one called, and whatever
the storage held at entry the array is `[7, 0]`: slot 1 holds `int{}`, not `7`.  (Called
directly, the constructor of line 48 does fill every slot, see
`ndarray_ctor_value_eq_uniform`.) -/
theorem construct_from_rvalue_scalar_fills_one_slot (entry : CArray Int 2) :
    ∃ a : ndarrayLast Int 2,
      ndarrayLast.construct 2 entry ValueCategory.rvalue (7 : Int) (by decide) = .ok a ∧
      a.m_data.val = [7, 0] ∧ a.subscript 0 = some 7 ∧ a.subscript 1 = some 0 ∧
      a.subscript 1 ≠ some 7 := by
  have h := ndarrayLast_ctor_values_eq 2 entry id [(7 : Int)] (by decide)
  refine ⟨_, h, rfl, rfl, rfl, ?_⟩
  show (some (0 : Int) : Option Int) ≠ some 7
  decide

/-- C6, default fill, evaluated at the declarations `ndarray<int, 2> a;` and
`ndarray<int, 2, 2> b;`: the defaulted constructors of lines 10 and 46 write no slot, so the
scalars are whatever the storage held, here `7, 9` and `7, 9, 8, 6`, not `int{}`.  Only when
the storage was zero-initialised first (`{}` or `()`) do all slots hold `T{}`. -/
theorem default_init_keeps_storage_content :
    (ndarrayLast.ctor_defaulted 2 (⟨[7, 9], rfl⟩ : CArray Int 2)).m_data.val = [7, 9] ∧
    (ndarrayLast.ctor_defaulted 2 (⟨[7, 9], rfl⟩ : CArray Int 2)).subscript 0 = some 7 ∧
    (ndarrayLast.ctor_defaulted 2 (⟨[7, 9], rfl⟩ : CArray Int 2)).subscript 0 ≠ some default ∧
    @ndarray.flatten Int 2 [2]
      (ndarrayFirst.ctor_defaulted 2 [2]
        (⟨[ndarrayLast.ctor_defaulted 2 (⟨[7, 9], rfl⟩ : CArray Int 2),
           ndarrayLast.ctor_defaulted 2 (⟨[8, 6], rfl⟩ : CArray Int 2)], rfl⟩ :
          CArray (ndarray Int 2 []) 2)) = [7, 9, 8, 6] ∧
    @ndarray.flatten Int 2 [2] (ndarray.ctor_default 2 [2]) = [0, 0, 0, 0] :=
  ⟨rfl, rfl, by decide, rfl, rfl⟩

/-- C7, round-trip indexing: for an array of any shape, an index `i` below the first extent
and a value `x` of the slot type, the assignment `a[i] = x` succeeds and `a[i]` then reads
`x`. -/
theorem subscript_assign_then_subscript {T : Type} (d : Nat) (ds : List Nat)
    (a : ndarray T d ds) (i : Nat) (x : Slot T ds) (hi : i < d) :
    ∃ a' : ndarray T d ds, ndarray.subscript_assign a i x = .ok a' ∧
      ndarray.subscript a' i = some x := by
  cases ds with
  | nil =>
    obtain ⟨data, hw, hr, _⟩ := CArray_read_write (ndarrayLast.m_data a) i x hi
    refine ⟨(⟨data, ndarrayLast.m_dimSize a⟩ : ndarrayLast T d), ?_, hr⟩
    simp only [ndarray.subscript_assign, ndarrayLast.subscript_assign, hw]
  | cons d' ds =>
    obtain ⟨data, hw, hr, _⟩ := CArray_read_write (ndarrayFirst.m_data a) i x hi
    refine ⟨(⟨data, ndarrayFirst.m_dimSize a, ndarrayFirst.m_restOfDimSizes a⟩ :
      ndarrayFirst (ndarray T d' ds) d (d' :: ds)), ?_, hr⟩
    simp only [ndarray.subscript_assign, ndarrayFirst.subscript_assign, hw]

/-- Witness of C7: in the value-initialised `ndarray<int, 2, 3>`, row 1 is assigned the row
broadcast from `4`. -/
theorem subscript_assign_then_subscript_witness :
    1 < 2 ∧
    ∃ a' : ndarray Int 2 [3],
      ndarray.subscript_assign (ndarray.ctor_default 2 [3] : ndarray Int 2 [3]) 1
        (ndarray.uniform (4 : Int) 3 []) = .ok a' ∧
      ndarray.subscript a' 1 = some (ndarray.uniform (4 : Int) 3 []) :=
  ⟨by decide, subscript_assign_then_subscript 2 [3] (ndarray.ctor_default 2 [3]) 1
    (ndarray.uniform (4 : Int) 3 []) (by decide)⟩

/-- C8, element count: for every shape and every instance of that shape (so for the result
of every constructor and of every indexed assignment), the in-order flattening of the nested
`m_data` arrays has exactly `D0 * D1 * ... * Dn-1` scalar slots. -/
theorem flatten_length_eq_product {T : Type} (d : Nat) (ds : List Nat) (a : ndarray T d ds) :
    (ndarray.flatten a).length = (d :: ds).prod := by
  induction ds generalizing d with
  | nil =>
    simp only [ndarray.flatten, List.prod_cons, List.prod_nil, Nat.mul_one]
    exact (ndarrayLast.m_data a).property
  | cons d' ds ih =>
    simp only [ndarray.flatten]
    rw [list_length_flatten_map ndarray.flatten ((d' :: ds).prod) (ih d'),
      (ndarrayFirst.m_data a).property]
    exact List.prod_cons.symm

/-- C9, nested rendering, evaluated at the shape `[2, 2, 2]` on the array broadcast from `7`:
`format` passes every sub-array to the formatter's `format`, which restarts `format_impl` at
indent level 0 (line 84), so the rows at depth 2 are indented by 2 spaces instead of 4 and
the closing brackets of the depth-1 sub-arrays by 0 spaces instead of 2. -/
theorem format_of_shape_2_2_2 :
    ∃ a : ndarray Int 2 [2, 2], ndarray.ctor_value 2 [2, 2] (7 : Int) = .ok a ∧
      ndarray.format fmtInt a =
        .ok "[\n  [\n  [7, 7],\n  [7, 7]\n],\n  [\n  [7, 7],\n  [7, 7]\n]\n]" ∧
      ndarray.format fmtInt a ≠
        .ok "[\n  [\n    [7, 7],\n    [7, 7]\n  ],\n  [\n    [7, 7],\n    [7, 7]\n  ]\n]" := by
  have hfmt : ndarray.format fmtInt (ndarray.uniform (7 : Int) 2 [2, 2]) =
      .ok "[\n  [\n  [7, 7],\n  [7, 7]\n],\n  [\n  [7, 7],\n  [7, 7]\n]\n]" := rfl
  refine ⟨ndarray.uniform (7 : Int) 2 [2, 2], ndarray_ctor_value_eq_uniform 2 [2, 2] 7, hfmt, ?_⟩
  intro h
  exact absurd (Except.ok.inj (hfmt.symm.trans h)) (by decide)

/-- C10, two-dimensional rendering: for every `ndarray<T, D0, D1>`, each row `i < D0` has a
one-line rendering, and `format` returns `"[\n"`, then these renderings in order, each after
two spaces, joined by `",\n"`, then `"\n]"`.  The array of line 142 renders as in the
example, and its `dimensions()` renders as `"[2, 5]"`, whatever the storage of its rows held
when their constructors were entered. -/
theorem format_two_dimensional {T : Type} (fmtT : T → String) (D0 D1 : Nat)
    (a : ndarray T D0 [D1]) (e0 e1 : CArray Int 5) :
    (∃ rows : List String, rows.length = D0 ∧
      (∀ i : Nat, i < D0 → ∃ (r : ndarray T D1 []) (text : String),
        ndarray.subscript a i = some r ∧ ndarray.format fmtT r = .ok text ∧
          rows[i]? = some text) ∧
      ndarray.format fmtT a =
        .ok ("[\n" ++ ",\n".intercalate (rows.map (fun text => "  " ++ text)) ++ "\n]")) ∧
    (∃ arr : ndarray Int 2 [5], main_arr e0 e1 = .ok arr ∧
      ndarray.flatten arr = [1, 2, 3, 0, 0, 1, 2, 3, 4, 5] ∧
      ndarray.format fmtInt arr = .ok "[\n  [1, 2, 3, 0, 0],\n  [1, 2, 3, 4, 5]\n]" ∧
      stdArray_format fmtSize (⟨ndarray.dimensions arr, rfl⟩ : CArray Nat 2) = .ok "[2, 5]") := by
  constructor
  · let rowText : ndarray T D1 [] → String := fun r =>
      "[" ++ ", ".intercalate ((ndarrayLast.m_data r).val.map fmtT) ++ "]"
    have hrow : ∀ r : ndarray T D1 [], ndarray.format fmtT r = .ok (rowText r) :=
      fun r => ndarrayLast_format_eq fmtT r
    have hlenA : (ndarrayFirst.m_data a).val.length = D0 := (ndarrayFirst.m_data a).property
    refine ⟨(ndarrayFirst.m_data a).val.map rowText, by simp [hlenA], ?_, ?_⟩
    · intro i hi
      have hil : i < (ndarrayFirst.m_data a).val.length := by rw [hlenA]; exact hi
      refine ⟨(ndarrayFirst.m_data a).val[i], rowText (ndarrayFirst.m_data a).val[i], ?_,
        hrow _, by simp [List.getElem?_eq_getElem hil]⟩
      exact List.getElem?_eq_getElem hil
    · have himpl := ndarrayFirst_format_impl_eq (ndarray.format fmtT) rowText hrow a 0
      simp only [ndarray.format, ndarrayFirst.format] at himpl ⊢
      rw [himpl]
      simp only [pad, String.empty_append, String.append_empty, List.map_map,
        String.append_assoc]
      rfl
  · have h0 := ndarrayLast_ctor_values_eq 5 e0 id [(1 : Int), 2, 3] (by decide)
    have h1 := ndarrayLast_ctor_values_eq 5 e1 id [(1 : Int), 2, 3, 4, 5] (by decide)
    have harr : main_arr e0 e1 = .ok
        (⟨⟨[(⟨⟨[1, 2, 3, 0, 0], rfl⟩, 5⟩ : ndarrayLast Int 5), ⟨⟨[1, 2, 3, 4, 5], rfl⟩, 5⟩],
          rfl⟩, 2, restOfDimSizesInit [5]⟩ : ndarrayFirst (ndarray Int 5 []) 2 [5]) := by
      simp only [main_arr, h0, h1]
      rfl
    exact ⟨_, harr, rfl, rfl, rfl⟩

/-- C11, innermost rendering: for every one-dimensional array, `format` returns `"["`, then
the renderings of the elements in index order joined by `", "`, then `"]"`.  The text is two
brackets, the renderings and exactly `LastDim - 1` separators of two characters, and it has
no line feed unless the rendering of an element has one. -/
theorem format_one_dimensional {T : Type} (fmtT : T → String) (LastDim : Nat)
    (a : ndarray T LastDim []) :
    ∃ text : String, ndarray.format fmtT a = .ok text ∧
      text = "[" ++ ", ".intercalate ((ndarrayLast.m_data a).val.map fmtT) ++ "]" ∧
      text.length =
        2 + (((ndarrayLast.m_data a).val.map fmtT).map String.length).sum + 2 * (LastDim - 1) ∧
      ((∀ x ∈ (ndarrayLast.m_data a).val, Char.ofNat 10 ∉ (fmtT x).data) →
        Char.ofNat 10 ∉ text.data) := by
  refine ⟨_, ndarrayLast_format_eq fmtT a, rfl, ?_, ?_⟩
  · have hlen : ((ndarrayLast.m_data a).val.map fmtT).length = LastDim := by
      simp [(ndarrayLast.m_data a).property]
    have h1 : ("[" : String).length = 1 := rfl
    have h2 : ("]" : String).length = 1 := rfl
    have h3 : (", " : String).length = 2 := rfl
    simp only [String.length_append, intercalate_length, hlen, h1, h2, h3]
    omega
  · intro hnl
    have hin : Char.ofNat 10 ∉
        (", ".intercalate ((ndarrayLast.m_data a).val.map fmtT)).data := by
      apply intercalate_not_mem ", " (Char.ofNat 10) (by decide)
      intro s hs
      obtain ⟨x, hx, rfl⟩ := List.mem_map.mp hs
      exact hnl x hx
    have hl : Char.ofNat 10 ∉ ("[" : String).data := by decide
    have hr : Char.ofNat 10 ∉ ("]" : String).data := by decide
    simp only [String.data_append, List.mem_append, not_or]
    exact ⟨⟨hl, hin⟩, hr⟩

/-- Witness of C11 on the `ndarray<int, 3>` holding `1, -2, 3`: its text is `"[1, -2, 3]"`,
of 10 characters, without a line feed. -/
theorem format_one_dimensional_witness :
    @ndarray.format Int fmtInt 3 [] (⟨⟨[1, -2, 3], rfl⟩, 3⟩ : ndarray Int 3 [])
      = .ok "[1, -2, 3]" ∧
    ("[1, -2, 3]" : String).length = 2 + (1 + 2 + 1) + 2 * (3 - 1) ∧
    Char.ofNat 10 ∉ ("[1, -2, 3]" : String).data := by
  obtain ⟨text, hfmt, htext, hlen, hnl⟩ :=
    format_one_dimensional fmtInt 3 (⟨⟨[1, -2, 3], rfl⟩, 3⟩ : ndarray Int 3 [])
  have hval : text = "[1, -2, 3]" := htext.trans (by decide)
  subst hval
  exact ⟨hfmt, by decide, hnl (by decide)⟩

/-- C12, shape rendering: the `std::array` formatter returns `"["`, then the renderings of
the elements in order joined by `", "`, then `"]"`; for an array of `std::size_t` the
renderings are decimal, and `[2, 5]`, the `dimensions()` of the array of line 142, renders as
`"[2, 5]"`. -/
theorem stdArray_format_joins_elements {T : Type} (fmtT : T → String) (N : Nat)
    (array : CArray T N) (sizes : CArray Nat N) :
    stdArray_format fmtT array = .ok ("[" ++ ", ".intercalate (array.val.map fmtT) ++ "]") ∧
    stdArray_format fmtSize sizes =
      .ok ("[" ++ ", ".intercalate (sizes.val.map Nat.repr) ++ "]") ∧
    stdArray_format fmtSize (⟨[2, 5], rfl⟩ : CArray Nat 2) = .ok "[2, 5]" ∧
    stdArray_format fmtSize (⟨[120, 7, 3], rfl⟩ : CArray Nat 3) = .ok "[120, 7, 3]" :=
  ⟨stdArray_format_eq fmtT array, stdArray_format_eq fmtSize sizes, rfl, rfl⟩

/-- C13, stored shape attributes, evaluated at the declared shape `[2, 3, 5]`: in the
value-initialised `ndarray<int, 2, 3, 5>` and in the one broadcast from `7`, `m_dimSize` is
`2` but `m_restOfDimSizes` is `[5, 0]`, not `[3, 5]`: the braces of line 8 hold the comma
fold, a single initialiser, and the second element is zero. -/
theorem restOfDimSizes_of_shape_2_3_5 :
    ndarray.m_dimSize (ndarray.ctor_default 2 [3, 5] : ndarray Int 2 [3, 5]) = 2 ∧
    ndarray.m_restOfDimSizes (ndarray.ctor_default 2 [3, 5] : ndarray Int 2 [3, 5]) = [5, 0] ∧
    ndarray.m_restOfDimSizes (ndarray.ctor_default 2 [3, 5] : ndarray Int 2 [3, 5]) ≠ [3, 5] ∧
    ∃ a : ndarray Int 2 [3, 5], ndarray.ctor_value 2 [3, 5] (7 : Int) = .ok a ∧
      ndarray.m_dimSize a = 2 ∧ ndarray.m_restOfDimSizes a = [5, 0] :=
  ⟨rfl, rfl, by decide, ndarray.uniform 7 2 [3, 5], ndarray_ctor_value_eq_uniform 2 [3, 5] 7,
    rfl, rfl⟩

/-- C16, the two one-argument constructors of a one-dimensional array of extent
`LastDim >= 2`: whatever the storage held at entry, the values constructor applied to the
single value `v` yields `[v, T{}, ..., T{}]`; the constructor from `const T&` applied to `v`
yields `[v, ..., v]`; and the two results are equal exactly when `v` is `T{}`. -/
theorem ctor_values_one_vs_ctor_value {T : Type} [Inhabited T] (LastDim : Nat)
    (entry : CArray T LastDim) (v : T) (h1 : [v].length ≤ LastDim) (h : 2 ≤ LastDim) :
    (∃ a b : ndarrayLast T LastDim,
      ndarrayLast.ctor_values LastDim entry id [v] h1 = .ok a ∧
      a.m_data.val = v :: List.replicate (LastDim - 1) default ∧
      ndarrayLast.ctor_value LastDim v = .ok b ∧
      b.m_data.val = List.replicate LastDim v) ∧
    (ndarrayLast.ctor_values LastDim entry id [v] h1 = ndarrayLast.ctor_value LastDim v ↔
      v = default) := by
  obtain ⟨a, ha, hval, hdim⟩ := ndarrayLast_ctor_values_spec LastDim entry id [v] h1
  have hb := ndarrayLast_ctor_value_eq LastDim v
  obtain ⟨m, rfl⟩ : ∃ m, LastDim = m + 2 := ⟨LastDim - 2, by omega⟩
  have hval' : a.m_data.val = v :: default :: List.replicate m default := by
    rw [hval]
    simp [List.replicate_succ]
  refine ⟨⟨a, _, ha, ?_, hb, rfl⟩, ?_⟩
  · rw [hval']
    simp [List.replicate_succ]
  rw [ha, hb]
  constructor
  · intro heq
    have hlist : a.m_data.val = (CArray.fill (m + 2) v).val := by
      rw [Except.ok.inj heq]
    rw [hval'] at hlist
    simp only [CArray.fill, List.replicate_succ, List.cons.injEq, true_and] at hlist
    exact hlist.1.symm
  · intro hv
    subst hv
    congr 1
    obtain ⟨data, dim⟩ := a
    simp only at hval' hdim
    subst hdim
    congr 1
    apply Subtype.ext
    rw [hval']
    simp [CArray.fill, List.replicate_succ]

/-- Witness of C16 at extent 2 and `v = 7`, on storage that holds `9, 9` at entry. -/
theorem ctor_values_one_vs_ctor_value_witness :
    [(7 : Int)].length ≤ 2 ∧ 2 ≤ 2 ∧
    ((∃ a b : ndarrayLast Int 2,
      ndarrayLast.ctor_values 2 (⟨[9, 9], rfl⟩ : CArray Int 2) id [(7 : Int)] (by decide)
        = .ok a ∧
      a.m_data.val = 7 :: List.replicate (2 - 1) default ∧
      ndarrayLast.ctor_value 2 (7 : Int) = .ok b ∧
      b.m_data.val = List.replicate 2 7) ∧
    (ndarrayLast.ctor_values 2 (⟨[9, 9], rfl⟩ : CArray Int 2) id [(7 : Int)] (by decide) =
        ndarrayLast.ctor_value 2 (7 : Int) ↔ (7 : Int) = default)) :=
  ⟨by decide, by decide,
    ctor_values_one_vs_ctor_value 2 (⟨[9, 9], rfl⟩ : CArray Int 2) (7 : Int) (by decide)
      (by decide)⟩

/-- C17, what `dimensions()` returns: for more than one extent it is the array of exactly two
entries `[D0, Dn-1]`, the first and the last declared extent, whatever the instance holds;
for a single extent it is `[D0]`. -/
theorem dimensions_eq_first_and_last {T : Type} (D0 D1 : Nat) (Ds : List Nat)
    (a b : ndarray T D0 (D1 :: Ds)) (c : ndarray T D0 []) :
    ndarray.dimensions a = [D0, (D1 :: Ds).getLast (List.cons_ne_nil D1 Ds)] ∧
    (ndarray.dimensions a).length = 2 ∧
    ndarray.dimensions a = ndarray.dimensions b ∧
    ndarray.dimensions c = [D0] := by
  have ha : ∀ x : ndarray T D0 (D1 :: Ds), ndarray.dimensions x = [D0, commaFold D1 Ds] :=
    fun _ => rfl
  refine ⟨?_, by rw [ha a]; rfl, by rw [ha a, ha b], rfl⟩
  rw [ha a, commaFold_eq_getLast]

/-- C14, the constructors never write out of bounds.  A write faults exactly when its index
is outside the array, and a fault ends the constructor; yet the constructor from `const T&`
succeeds at every shape, the initializer-list constructor either succeeds or throws the
`std::runtime_error` of line 20, and under its constraint `k <= LastDim` the values
constructor succeeds on every content `entry` of the storage: its fold leaves `index = k`
(the guard of line 58 held at each of the `k` values), and the loop of lines 59-61, entered
at `k`, writes `T{}` to the slots from `k` up to `LastDim` and keeps the `k` slots below. -/
theorem constructors_write_in_bounds {T V : Type} [Inhabited T]
    (d : Nat) (ds : List Nat) (value : T)
    (FirstDim d' : Nat) (ds' : List Nat) (list : List (ndarray T d' ds'))
    (LastDim : Nat) (entry : CArray T LastDim) (convert : V → T) (values : List V)
    (h : values.length ≤ LastDim) :
    (∀ (data : CArray T LastDim) (i : Nat) (x : T),
      CArray.write data i x = .error .out_of_bounds ↔ ¬ i < LastDim) ∧
    (∃ a : ndarray T d ds, ndarray.ctor_value d ds value = .ok a) ∧
    ((∃ a : ndarray T FirstDim (d' :: ds'), ndarray.ctor_list FirstDim d' ds' list = .ok a) ∨
      ndarray.ctor_list FirstDim d' ds' list = .error (.runtime_error
        "Initializer list size does not match the allocated dimension.")) ∧
    (∃ (data : CArray T LastDim) (a : ndarrayLast T LastDim),
      ndarrayLast.valuesFold values.length convert values 0 entry
          = .ok (values.length, data) ∧
      forLoop LastDim (fun i d => CArray.write d i default) values.length data = .ok a.m_data ∧
      a.m_data.val =
        data.val.take values.length ++ List.replicate (LastDim - values.length) default ∧
      ndarrayLast.ctor_values LastDim entry convert values h = .ok a) := by
  refine ⟨?_, ⟨_, ndarray_ctor_value_eq_uniform d ds value⟩, ?_, ?_⟩
  · intro data i x
    by_cases hi : i < LastDim
    · simp [CArray_write_ok data i x hi, hi]
    · simp [CArray_write_error data i x hi, hi]
  · by_cases hlen : list.length = FirstDim
    · exact Or.inl ⟨_, ndarrayFirst_ctor_list_eq FirstDim (d' :: ds')
        (ndarray.ctor_default d' ds' : ndarray T d' ds') list hlen⟩
    · right
      simp only [ndarray.ctor_list, ndarrayFirst.ctor_list, ne_eq, hlen, not_false_eq_true,
        if_true]
  · obtain ⟨data, hd, _⟩ := ndarrayLast_valuesFold_spec values.length convert values 0
      entry (by omega) (by omega)
    have h0 : 0 + values.length = values.length := by omega
    rw [h0] at hd
    obtain ⟨data', hd', hval'⟩ := fillLoop_spec (default : T) values.length data h
    refine ⟨data, ⟨data', LastDim⟩, hd, hd', hval', ?_⟩
    simp only [ndarrayLast.ctor_values, hd, hd']

/-- Witness of C14: the broadcast `ndarray<int, 2, 3>(7)`, the list construction of an
`ndarray<int, 2, 2>` from two rows, and `ndarray<int, 5>{1, 2, 3}` on storage that holds `9`
in every slot at entry. -/
theorem constructors_write_in_bounds_witness :
    [(1 : Int), 2, 3].length ≤ 5 ∧
    ((∀ (data : CArray Int 5) (i : Nat) (x : Int),
      CArray.write data i x = .error .out_of_bounds ↔ ¬ i < 5) ∧
    (∃ a : ndarray Int 2 [3], ndarray.ctor_value 2 [3] (7 : Int) = .ok a) ∧
    ((∃ a : ndarray Int 2 [2], ndarray.ctor_list 2 2 []
        [ndarray.uniform (1 : Int) 2 [], ndarray.uniform (2 : Int) 2 []] = .ok a) ∨
      ndarray.ctor_list 2 2 [] [ndarray.uniform (1 : Int) 2 [], ndarray.uniform (2 : Int) 2 []]
        = .error (.runtime_error
          "Initializer list size does not match the allocated dimension.")) ∧
    (∃ (data : CArray Int 5) (a : ndarrayLast Int 5),
      ndarrayLast.valuesFold [(1 : Int), 2, 3].length id [(1 : Int), 2, 3] 0
        (⟨[9, 9, 9, 9, 9], rfl⟩ : CArray Int 5)
          = .ok ([(1 : Int), 2, 3].length, data) ∧
      forLoop 5 (fun i d => CArray.write d i default) [(1 : Int), 2, 3].length data
        = .ok a.m_data ∧
      a.m_data.val =
        data.val.take [(1 : Int), 2, 3].length
          ++ List.replicate (5 - [(1 : Int), 2, 3].length) default ∧
      ndarrayLast.ctor_values 5 (⟨[9, 9, 9, 9, 9], rfl⟩ : CArray Int 5) id [(1 : Int), 2, 3]
        (by decide) = .ok a)) :=
  ⟨by decide, constructors_write_in_bounds 2 [3] (7 : Int) 2 2 []
    [ndarray.uniform (1 : Int) 2 [], ndarray.uniform (2 : Int) 2 []] 5
    (⟨[9, 9, 9, 9, 9], rfl⟩ : CArray Int 5) id [(1 : Int), 2, 3] (by decide)⟩

/-- C15, frame of an indexed assignment, for an array `a` of any shape.  For every index
`i` below the first extent, `a[i] = x` succeeds, leaves `a[j]` at its previous value for
every other index `j` below the first extent, and leaves `dimensions()`, `m_dimSize` and
`m_restOfDimSizes` unchanged.  For every index tuple within the extents, the scalar
assignment `a[i0]...[in-1] = v` succeeds, stores `v` at that tuple, leaves the scalar at every
other tuple as it was, and leaves the shape members unchanged. -/
theorem subscript_assign_frame {T : Type} (d : Nat) (ds : List Nat) (a : ndarray T d ds) :
    (∀ (i : Nat) (x : Slot T ds), i < d →
      ∃ a' : ndarray T d ds, ndarray.subscript_assign a i x = .ok a' ∧
        (∀ j : Nat, j < d → i ≠ j →
          ∃ r : Slot T ds, ndarray.subscript a j = some r ∧ ndarray.subscript a' j = some r) ∧
        ndarray.dimensions a' = ndarray.dimensions a ∧
        ndarray.m_dimSize a' = ndarray.m_dimSize a ∧
        ndarray.m_restOfDimSizes a' = ndarray.m_restOfDimSizes a) ∧
    (∀ (idx : List Nat) (v : T), InRange idx (d :: ds) →
      ∃ a' : ndarray T d ds, ndarray.element_assign a idx v = .ok a' ∧
        ndarray.element a' idx = some v ∧
        (∀ idx' : List Nat, idx' ≠ idx → ndarray.element a' idx' = ndarray.element a idx') ∧
        ndarray.dimensions a' = ndarray.dimensions a ∧
        ndarray.m_dimSize a' = ndarray.m_dimSize a ∧
        ndarray.m_restOfDimSizes a' = ndarray.m_restOfDimSizes a) := by
  have hdims : ∀ b c : ndarray T d ds, ndarray.dimensions b = ndarray.dimensions c := by
    intro b c
    cases ds with
    | nil => rfl
    | cons d' ds' => rfl
  constructor
  · intro i x hi
    cases ds with
    | nil =>
      obtain ⟨data, hw, _, hframe⟩ := CArray_read_write (ndarrayLast.m_data a) i x hi
      refine ⟨(⟨data, ndarrayLast.m_dimSize a⟩ : ndarrayLast T d), ?_, ?_, hdims _ _, rfl, rfl⟩
      · simp only [ndarray.subscript_assign, ndarrayLast.subscript_assign, hw]
      · intro j hj hne
        obtain ⟨r, hr⟩ := CArray_read_some (ndarrayLast.m_data a) j hj
        exact ⟨r, hr, (hframe j (Ne.symm hne)).trans hr⟩
    | cons d' ds' =>
      obtain ⟨data, hw, _, hframe⟩ := CArray_read_write (ndarrayFirst.m_data a) i x hi
      refine ⟨(⟨data, ndarrayFirst.m_dimSize a, ndarrayFirst.m_restOfDimSizes a⟩ :
        ndarrayFirst (ndarray T d' ds') d (d' :: ds')), ?_, ?_, hdims _ _, rfl, rfl⟩
      · simp only [ndarray.subscript_assign, ndarrayFirst.subscript_assign, hw]
      · intro j hj hne
        obtain ⟨r, hr⟩ := CArray_read_some (ndarrayFirst.m_data a) j hj
        exact ⟨r, hr, (hframe j (Ne.symm hne)).trans hr⟩
  · intro idx v hidx
    obtain ⟨a', ha', hget, hother, hdim, hrest⟩ := ndarray_element_assign_spec ds d a idx v hidx
    exact ⟨a', ha', hget, hother, hdims _ _, hdim, hrest⟩

/-- Witness of C15.  In the value-initialised `ndarray<int, 2, 3>`, row 0 is assigned the row
broadcast from `4`: row 1 and `m_dimSize` stay.  In the value-initialised
`ndarray<int, 1, 3>`, whose first extent is 1, the scalar at `[0][2]` is assigned `9`: it
reads `9` afterwards and the scalar at `[0][1]` is still `0`. -/
theorem subscript_assign_frame_witness :
    (0 < 2 ∧ 1 < 2 ∧ 0 ≠ 1 ∧
      ∃ a' : ndarray Int 2 [3],
        ndarray.subscript_assign (ndarray.ctor_default 2 [3] : ndarray Int 2 [3]) 0
          (ndarray.uniform (4 : Int) 3 []) = .ok a' ∧
        ndarray.subscript a' 1 = some (ndarray.uniform (0 : Int) 3 []) ∧
        ndarray.m_dimSize a' = 2) ∧
    (InRange [0, 2] [1, 3] ∧ [0, 1] ≠ [0, 2] ∧
      ∃ a' : ndarray Int 1 [3],
        ndarray.element_assign (ndarray.ctor_default 1 [3] : ndarray Int 1 [3]) [0, 2] 9
          = .ok a' ∧
        ndarray.element a' [0, 2] = some 9 ∧ ndarray.element a' [0, 1] = some 0) := by
  obtain ⟨a', hok, hframe, _, hdim, _⟩ :=
    (subscript_assign_frame 2 [3] (ndarray.ctor_default 2 [3] : ndarray Int 2 [3])).1 0
      (ndarray.uniform (4 : Int) 3 []) (by decide)
  obtain ⟨r, hr, hr'⟩ := hframe 1 (by decide) (by decide)
  have hrow : r = ndarray.uniform (0 : Int) 3 [] := (Option.some.inj hr).symm
  obtain ⟨b', hbok, hget, hother, _, _, _⟩ :=
    (subscript_assign_frame 1 [3] (ndarray.ctor_default 1 [3] : ndarray Int 1 [3])).2 [0, 2] 9
      (by decide)
  refine ⟨⟨by decide, by decide, by decide, a', hok, hrow ▸ hr', hdim⟩,
    by decide, by decide, b', hbok, hget, ?_⟩
  exact (hother [0, 1] (by decide)).trans rfl

end CompileTimeNdarray
